import Mathlib

/-!
Verification of the pagination-and-batch-delete core of
`delete_workflow_runs.py`, a command-line utility that lists GitHub Actions
workflows and bulk-deletes workflow runs over the GitHub REST API.

The embedding translates the Python source shallowly:

* Python single-character `str.split`, `str.strip` and the slice `[1:-1]`
  become executable functions on `List Char` (`pySplitChars`, `pyStrip`,
  `pyCore`).
* `dict` assignment and `dict.get` become `dictInsert` / `dictGet?` on an
  insertion-ordered association list, matching CPython semantics (later
  assignments to an existing key overwrite in place).
* `parse_link_header` is translated statement by statement; a Python
  `IndexError` (the source indexes `section[1]` and `split('=')[1]` without
  a guard) is modelled as the `none` outcome of an `Option`-valued result.
* The HTTP transport is a parameter: a function from the request URL to a
  response record (status, parsed JSON body, raw text body, `Link` header).
  The URL construction of `http_get` / `http_delete` (`buildUrl`) is
  translated from the source.
* The unbounded `while url:` loop of `paginate` runs on explicit fuel; a
  result whose `finished` flag is `true` was produced without exhausting
  the fuel, i.e. it is the value the Python loop terminates with.
* Interactive prompts (`input`, `getpass`) are modelled as an input stream
  `List String` together with a count of consumed entries; `print` calls
  are accumulated in a log, one entry per `print`.
-/

namespace DWR

/-! ## Python string primitives -/

/-- Python `s.split(sep)` for a single-character separator: splits at every
occurrence, keeping empty fragments; `"".split(sep) = [""]`. -/
def pySplitChars (sep : Char) : List Char → List (List Char)
  | [] => [[]]
  | c :: cs =>
    match pySplitChars sep cs with
    | [] => [[]]
    | g :: gs => if c = sep then [] :: g :: gs else (c :: g) :: gs

/-- Python `s.lstrip()`: drop leading whitespace. -/
def pyLStrip (l : List Char) : List Char := l.dropWhile Char.isWhitespace

/-- Python `s.rstrip()`: drop trailing whitespace. -/
def pyRStrip (l : List Char) : List Char :=
  (l.reverse.dropWhile Char.isWhitespace).reverse

/-- Python `s.strip()`: drop whitespace at both ends. -/
def pyStrip (l : List Char) : List Char := pyRStrip (pyLStrip l)

/-- Python slice `s[1:-1]`: drop the first and the last character. -/
def pyCore (l : List Char) : List Char := (l.drop 1).dropLast

/-- Python `s.lower()`, character by character (the inputs compared here
are ASCII, where CPython and `Char.toLower` agree). -/
def pyLower (s : String) : String := String.mk (s.data.map Char.toLower)

/-! ## Python dict as insertion-ordered association list -/

/-- `d[k] = v` on a CPython dict: overwrite in place if the key exists,
otherwise append at the end (insertion order is preserved). -/
def dictInsert (d : List (String × String)) (k v : String) :
    List (String × String) :=
  if d.any (fun p => p.1 == k) then
    d.map (fun p => if p.1 == k then (k, v) else p)
  else d ++ [(k, v)]

/-- `d.get(k)`: the value stored at `k`, or `none`. -/
def dictGet? (d : List (String × String)) (k : String) : Option String :=
  (d.find? (fun p => p.1 == k)).map Prod.snd

/-! ## `parse_link_header` (source lines 51-64)

```python
def parse_link_header(link_header):
    if not link_header:
        return None
    links = link_header.split(',')
    link_dict = {}
    for link in links:
        section = link.split(';')
        url = section[0].strip()[1:-1]
        rel = section[1].strip().split('=')[1][1:-1]
        link_dict[rel] = url
    return link_dict
```
-/

/-- One iteration of the `for link in links` body: `none` models the
`IndexError` raised when the segment has no `;` (no `section[1]`) or the
rel part has no `=` (no `split('=')[1]`). -/
def parseSegment (seg : List Char) : Option (String × String) :=
  match pySplitChars ';' seg with
  | [] => none
  | s0 :: rest =>
    match rest with
    | [] => none
    | s1 :: _ =>
      match (pySplitChars '=' (pyStrip s1)).get? 1 with
      | none => none
      | some relp =>
        some (String.mk (pyCore relp), String.mk (pyCore (pyStrip s0)))

/-- The `for` loop of `parse_link_header`, threading `link_dict`;
`none` models an uncaught `IndexError`. -/
def parseLinkGo : List (List Char) → List (String × String) →
    Option (List (String × String))
  | [], d => some d
  | seg :: rest, d =>
    match parseSegment seg with
    | none => none
    | some (rel, url) => parseLinkGo rest (dictInsert d rel url)

/-- `parse_link_header`. The outer `Option` models normal return versus an
uncaught `IndexError`; the inner `Option` is the Python `None` returned for
a missing (`none`) or empty (`""`, falsy) header. -/
def parse_link_header : Option String →
    Option (Option (List (String × String)))
  | none => some none
  | some h =>
    if h = "" then some none
    else
      match parseLinkGo (pySplitChars ',' h.data) [] with
      | none => none
      | some d => some (some d)

/-! ## Transport (source lines 23-49)

`http_get` / `http_delete` share the URL construction

```python
if params and '?' not in url:
    url = f"{url}?{urlencode(params)}"
```

The network round trip itself is an external collaborator and becomes a
function parameter from the request URL to a response.  A response carries
the status, the parsed JSON body (the source immediately feeds `data` to
`json.loads`; the parse is modelled as already done), the raw body text
used by `data.decode('utf-8')` in error reports, and the `Link` header. -/

structure HttpResp (α : Type) where
  status : Nat
  body : α
  raw : String
  linkHeader : Option String

/-- `urlencode(params)` for the alphanumeric parameters this program sends
(`{"per_page": 20}`); percent-escaping never fires on them and is
abstracted away. -/
def urlencode (ps : List (String × String)) : String :=
  String.intercalate "&" (ps.map (fun p => p.1 ++ "=" ++ p.2))

/-- Python truthiness of the `params` argument: `None` and `{}` are falsy. -/
def paramsTruthy : Option (List (String × String)) → Bool
  | none => false
  | some l => !l.isEmpty

/-- The URL actually requested: `if params and '?' not in url:
url = f"{url}?{urlencode(params)}"` (source lines 24-25 and 38-39). -/
def buildUrl (url : String) (params : Option (List (String × String))) :
    String :=
  if paramsTruthy params = true ∧ '?' ∉ url.data then
    url ++ "?" ++ urlencode (params.getD [])
  else url

/-! ## `paginate` (source lines 66-82)

```python
def paginate(initial_url, request_headers, params=None):
    response_data = []
    url = initial_url
    while url:
        status, data, response_headers = http_get(url, request_headers, params)
        if status == 200:
            response_data.append(json.loads(data))
            links = parse_link_header(response_headers.get('Link'))
            url = links.get('next') if links else None
        else:
            print(f"Failed to retrieve items: {status}")
            print(data.decode('utf-8'))
            break
    return response_data
```
-/

/-- Result of a pagination session: the accumulated per-page payloads, the
URLs requested (in order), the printed lines (in order; `http_get` prints
`GET <url>` before each request), and whether the loop reached its exit
(`finished = false` only when the model ran out of fuel). -/
structure PagRes (α : Type) where
  pages : List α
  requests : List String
  log : List String
  finished : Bool

/-- `url = links.get('next') if links else None`, with CPython truthiness
of the dict (`None` and `{}` are falsy). -/
def linkNext : Option (List (String × String)) → Option String
  | none => none
  | some d => if d = [] then none else dictGet? d "next"

/-- The `while url:` loop of `paginate` on explicit fuel.  The loop
variable is `none` once `links.get('next')` is absent; a `some ""` URL is
falsy in Python and also exits the loop.  The outer `Option` models an
uncaught `IndexError` escaping from `parse_link_header`. -/
def paginateAux (fetch : String → HttpResp α)
    (params : Option (List (String × String))) :
    Nat → Option String → Option (PagRes α)
  | _, none => some ⟨[], [], [], true⟩
  | 0, some u =>
    if u = "" then some ⟨[], [], [], true⟩ else some ⟨[], [], [], false⟩
  | fuel + 1, some u =>
    if u = "" then some ⟨[], [], [], true⟩
    else
      let ru := buildUrl u params
      let r := fetch ru
      if r.status = 200 then
        match parse_link_header r.linkHeader with
        | none => none
        | some links =>
          match paginateAux fetch params fuel (linkNext links) with
          | none => none
          | some res =>
            some ⟨r.body :: res.pages, ru :: res.requests,
              ("GET " ++ ru) :: res.log, res.finished⟩
      else
        some ⟨[], [ru],
          ["GET " ++ ru, "Failed to retrieve items: " ++ toString r.status,
           r.raw], true⟩

/-- `paginate(initial_url, request_headers, params)`. -/
def paginate (fuel : Nat) (fetch : String → HttpResp α)
    (initial_url : String) (params : Option (List (String × String))) :
    Option (PagRes α) :=
  paginateAux fetch params fuel (some initial_url)

/-! ## Data model and controller (source lines 84-171)

The `DeleteWorkflowRuns` class holds `owner`, `repo`, `token` as instance
state written once by `run()`; the embedding passes them as parameters.
The `headers` property only feeds the external transport and carries no
logic, so it is not modelled.  Entities keep the JSON fields the source
reads: `workflow['id']`, `workflow['name']`, `run['id']`. -/

structure Workflow where
  id : Nat
  name : String

structure WorkflowsPage where
  workflows : List Workflow

structure Run where
  id : Nat

structure RunsPage where
  workflow_runs : List Run

/-- `f"/repos/{self.owner}/{self.repo}/actions/workflows"` (line 100). -/
def workflowsUrl (owner repo : String) : String :=
  "/repos/" ++ owner ++ "/" ++ repo ++ "/actions/workflows"

/-- `f"/repos/{self.owner}/{self.repo}/actions/workflows/{workflow_id}/runs"`
(line 116). -/
def runsUrl (owner repo workflow_id : String) : String :=
  "/repos/" ++ owner ++ "/" ++ repo ++ "/actions/workflows/" ++
    workflow_id ++ "/runs"

/-- `f"/repos/{self.owner}/{self.repo}/actions/runs/{run_id}"` (line 139). -/
def runUrl (owner repo : String) (run_id : Nat) : String :=
  "/repos/" ++ owner ++ "/" ++ repo ++ "/actions/runs/" ++ toString run_id

/-- `params={"per_page": 20}` (lines 101 and 117). -/
def perPage20 : List (String × String) := [("per_page", "20")]

/-- Observable outcome of a controller operation: printed lines (one per
`print` call; `input`/`getpass` prompt texts are not `print` calls and are
not logged), the GET and DELETE request URLs in order, and how many input
prompts were consumed. -/
structure CmdResult where
  log : List String
  getRequests : List String
  deleteRequests : List String
  inputsRead : Nat

/-- `[workflow for response in responses for workflow in
response["workflows"]]` (line 102). -/
def flattenWorkflows (pages : List WorkflowsPage) : List Workflow :=
  (pages.map (fun p => p.workflows)).flatten

/-- `[workflow_run for response in responses for workflow_run in
response["workflow_runs"]]` (line 119). -/
def flattenRuns (pages : List RunsPage) : List Run :=
  (pages.map (fun p => p.workflow_runs)).flatten

/-- `list_workflows` (lines 99-113). -/
def list_workflows_m (fetch : String → HttpResp WorkflowsPage) (fuel : Nat)
    (owner repo : String) : Option CmdResult :=
  match paginate fuel fetch (workflowsUrl owner repo) (some perPage20) with
  | none => none
  | some res =>
    let workflows := flattenWorkflows res.pages
    if workflows.isEmpty then
      some ⟨res.log ++ ["No workflows found."], res.requests, [], 0⟩
    else
      some ⟨res.log ++ ["\nWorkflow ID\tWorkflow Name\n"] ++
        workflows.map (fun w => toString w.id ++ "\t" ++ w.name) ++
        ["\nTotal: " ++ toString workflows.length], res.requests, [], 0⟩

/-- `list_workflow_runs` (lines 115-119); the pagination trace is returned
alongside the flattened list so callers can account for its requests and
prints. -/
def list_workflow_runs_m (fetch : String → HttpResp RunsPage) (fuel : Nat)
    (owner repo workflow_id : String) :
    Option (List Run × PagRes RunsPage) :=
  match paginate fuel fetch (runsUrl owner repo workflow_id)
      (some perPage20) with
  | none => none
  | some res => some (flattenRuns res.pages, res)

/-- The `for run in workflow_runs` deletion loop (lines 137-147), returning
the DELETE request URLs and the printed lines.  `http_delete` prints
`DELETE <url>`; a 204 status prints `Success`, anything else prints
`Failed: <status>` and the decoded body, and the loop continues. -/
def deleteLoop (deleteFetch : String → Nat × String) (owner repo : String) :
    List Run → List String × List String
  | [] => ([], [])
  | r :: rest =>
    (runUrl owner repo r.id :: (deleteLoop deleteFetch owner repo rest).1,
     ("DELETE " ++ runUrl owner repo r.id) ::
       (if (deleteFetch (runUrl owner repo r.id)).1 = 204 then ["Success"]
        else ["Failed: " ++ toString (deleteFetch (runUrl owner repo r.id)).1,
          (deleteFetch (runUrl owner repo r.id)).2]) ++
       (deleteLoop deleteFetch owner repo rest).2)

/-- `f"\nAre you sure you want to delete all {len(workflow_runs)} workflow
runs?"` (line 128). -/
def confirmMsg (n : Nat) : String :=
  "\nAre you sure you want to delete all " ++ toString n ++ " workflow runs?"

/-- `delete_workflow_runs` (lines 121-149).  `inputs` is the stream the
confirmation prompt reads from; `confirm.lower() != 'y'` aborts. -/
def delete_workflow_runs_m (getFetch : String → HttpResp RunsPage)
    (deleteFetch : String → Nat × String) (fuel : Nat)
    (owner repo workflow_id : String) (inputs : List String) :
    Option CmdResult :=
  match list_workflow_runs_m getFetch fuel owner repo workflow_id with
  | none => none
  | some (workflow_runs, res) =>
    if workflow_runs.isEmpty then
      some ⟨res.log ++ ["No workflow runs found."], res.requests, [], 0⟩
    else
      let confirm := inputs.getD 0 ""
      if pyLower confirm ≠ "y" then
        some ⟨res.log ++ [confirmMsg workflow_runs.length, "Aborted."],
          res.requests, [], 1⟩
      else
        some ⟨res.log ++ [confirmMsg workflow_runs.length,
            "\nAs you wish...\n"] ++
            (deleteLoop deleteFetch owner repo workflow_runs).2 ++
            ["\nDone."],
          res.requests,
          (deleteLoop deleteFetch owner repo workflow_runs).1, 1⟩

/-- `commands = ["list_workflows", "delete_workflow_runs"]` (line 154). -/
def commands : List String := ["list_workflows", "delete_workflow_runs"]

/-- `run` (lines 151-168).  The input stream is consumed in prompt order:
token, command, owner, repo, then (delete command only) workflow id and
whatever `delete_workflow_runs` reads. -/
def runMain (wfFetch : String → HttpResp WorkflowsPage)
    (runFetch : String → HttpResp RunsPage)
    (deleteFetch : String → Nat × String) (fuel : Nat)
    (inputs : List String) : Option CmdResult :=
  let command := inputs.getD 1 ""
  if command ∈ commands then
    let owner := inputs.getD 2 ""
    let repo := inputs.getD 3 ""
    if command = "list_workflows" then
      match list_workflows_m wfFetch fuel owner repo with
      | none => none
      | some r => some ⟨r.log, r.getRequests, r.deleteRequests, 4⟩
    else
      let workflow_id := inputs.getD 4 ""
      match delete_workflow_runs_m runFetch deleteFetch fuel owner repo
          workflow_id (inputs.drop 5) with
      | none => none
      | some r =>
        some ⟨r.log, r.getRequests, r.deleteRequests, 5 + r.inputsRead⟩
  else
    some ⟨["Invalid command"], [], [], 2⟩

/-! ## Well-formed Link headers and mock transports

Test scaffolding for the universally quantified properties: a renderer for
well-formed `<url>; rel="name"` headers and a mock transport that serves an
arbitrary finite chain of pages, each but the last carrying a `next` link,
as the spec's testable properties describe. -/

/-- The characters of one well-formed entry `<url>; rel="name"`;
`e = (name, url)` following the relation-to-URL direction of the mapping. -/
def renderEntryChars (e : String × String) : List Char :=
  '<' :: (e.2.data ++ ('>' :: (';' :: (' ' :: ('r' :: ('e' :: ('l' ::
    ('=' :: ('"' :: (e.1.data ++ ['"']))))))))))

/-- One well-formed entry `<url>; rel="name"` as a string. -/
def renderEntry (e : String × String) : String :=
  String.mk (renderEntryChars e)

/-- A well-formed header value: entries joined by `", "`, so every segment
after the first carries the surrounding whitespace the parser must
tolerate. -/
def renderHeader : List (String × String) → String
  | [] => ""
  | [e] => renderEntry e
  | e :: es => renderEntry e ++ ", " ++ renderHeader es

/-- An entry whose relation name and URL do not collide with the
separators of the wire format: no `,` or `;` in either, no `=` in the
relation name. -/
def goodEntry (e : String × String) : Prop :=
  ',' ∉ e.1.data ∧ ';' ∉ e.1.data ∧ '=' ∉ e.1.data ∧
    ',' ∉ e.2.data ∧ ';' ∉ e.2.data

instance (e : String × String) : Decidable (goodEntry e) := by
  unfold goodEntry
  infer_instance

/-- One page served by the mock transport: response status, parsed body,
raw body text. -/
structure PageSpec (α : Type) where
  status : Nat
  body : α
  raw : String

/-- URL of the i-th mock page: `/`, `/a`, `/aa`, ... (distinct, non-empty,
free of separator characters). -/
def mockUrl (i : Nat) : String :=
  String.mk ('/' :: List.replicate i 'a')

/-- A `Link` header pointing at `u` via `rel="next"`. -/
def nextHeader (u : String) : String := renderEntry ("next", u)

/-- The mock transport: the i-th page answers at `mockUrl i` and carries a
`next` link exactly when a page follows; any other URL gets a 404. -/
def mockFetchGo (err : α) : List (PageSpec α) → Nat → String → HttpResp α
  | [], _, _ => ⟨404, err, "Not Found", none⟩
  | sp :: rest, i, s =>
    if s = mockUrl i then
      ⟨sp.status, sp.body, sp.raw,
        if rest.isEmpty then none else some (nextHeader (mockUrl (i + 1)))⟩
    else mockFetchGo err rest (i + 1) s

/-- The mock transport serving `specs`, first page at `mockUrl 0`. -/
def mockFetch (err : α) (specs : List (PageSpec α)) : String → HttpResp α :=
  mockFetchGo err specs 0

/-- The pagination outcome on the mock transport, page by page: a 200 page
is collected and the loop moves on; any other status halts with the error
report. -/
def mockRun : Nat → List (PageSpec α) → PagRes α
  | _, [] => ⟨[], [], [], true⟩
  | i, sp :: rest =>
    if sp.status = 200 then
      ⟨sp.body :: (mockRun (i + 1) rest).pages,
       mockUrl i :: (mockRun (i + 1) rest).requests,
       ("GET " ++ mockUrl i) :: (mockRun (i + 1) rest).log,
       (mockRun (i + 1) rest).finished⟩
    else
      ⟨[], [mockUrl i],
       ["GET " ++ mockUrl i,
        "Failed to retrieve items: " ++ toString sp.status, sp.raw], true⟩

/-- The k requested URLs starting at page i of the mock transport. -/
def mockReqs (i : Nat) : Nat → List String
  | 0 => []
  | k + 1 => mockUrl i :: mockReqs (i + 1) k

end DWR

deriving instance DecidableEq for DWR.Workflow
deriving instance DecidableEq for DWR.WorkflowsPage
deriving instance DecidableEq for DWR.Run
deriving instance DecidableEq for DWR.RunsPage
deriving instance DecidableEq for DWR.PagRes
deriving instance DecidableEq for DWR.CmdResult
deriving instance DecidableEq for DWR.HttpResp
deriving instance DecidableEq for DWR.PageSpec

namespace DWR

/-! ## Lemmas on the Python string primitives -/

theorem pySplitChars_ne_nil (sep : Char) (l : List Char) :
    pySplitChars sep l ≠ [] := by
  cases l with
  | nil => simp [pySplitChars]
  | cons c cs =>
    simp only [pySplitChars]
    cases pySplitChars sep cs with
    | nil => simp
    | cons g gs => by_cases hc : c = sep <;> simp [hc]

theorem pySplitChars_of_not_mem {sep : Char} {l : List Char} (h : sep ∉ l) :
    pySplitChars sep l = [l] := by
  induction l with
  | nil => rfl
  | cons c cs ih =>
    have hc : c ≠ sep := fun hc => h (hc ▸ List.mem_cons_self c cs)
    have hcs : sep ∉ cs := fun hm => h (List.mem_cons_of_mem _ hm)
    simp [pySplitChars, ih hcs, hc]

theorem pySplitChars_append {sep : Char} {l₁ l₂ : List Char} (h : sep ∉ l₁) :
    pySplitChars sep (l₁ ++ sep :: l₂) = l₁ :: pySplitChars sep l₂ := by
  induction l₁ with
  | nil =>
    simp only [List.nil_append, pySplitChars]
    cases hv : pySplitChars sep l₂ with
    | nil => exact absurd hv (pySplitChars_ne_nil sep l₂)
    | cons g gs => simp
  | cons c cs ih =>
    have hc : c ≠ sep := fun hc => h (hc ▸ List.mem_cons_self c cs)
    have hcs : sep ∉ cs := fun hm => h (List.mem_cons_of_mem _ hm)
    rw [List.cons_append]
    simp only [pySplitChars]
    rw [ih hcs]
    simp [hc]

theorem dropWhile_append_of_forall {p : Char → Bool} {pre l : List Char}
    (h : ∀ c ∈ pre, p c = true) :
    (pre ++ l).dropWhile p = l.dropWhile p := by
  induction pre with
  | nil => rfl
  | cons c cs ih =>
    have hc : p c = true := h c (List.mem_cons_self c cs)
    simp [List.dropWhile_cons, hc,
      ih (fun d hd => h d (List.mem_cons_of_mem _ hd))]

theorem pyStrip_sandwich {pre mid : List Char} {x y : Char}
    (hpre : ∀ c ∈ pre, c.isWhitespace = true)
    (hx : x.isWhitespace = false) (hy : y.isWhitespace = false) :
    pyStrip (pre ++ x :: (mid ++ [y])) = x :: (mid ++ [y]) := by
  have h1 : pyLStrip (pre ++ x :: (mid ++ [y])) = x :: (mid ++ [y]) := by
    simp [pyLStrip, dropWhile_append_of_forall hpre, List.dropWhile_cons, hx]
  rw [pyStrip, h1, pyRStrip]
  have h2 : (x :: (mid ++ [y])).reverse = y :: (mid.reverse ++ [x]) := by
    simp
  rw [h2]
  simp [List.dropWhile_cons, hy]

theorem pyCore_sandwich (x : Char) (mid : List Char) (y : Char) :
    pyCore (x :: (mid ++ [y])) = mid := by
  simp [pyCore]

/-! ## Lemmas on the dict model -/

theorem dictInsert_fresh {d : List (String × String)} {k v : String}
    (h : ∀ p ∈ d, p.1 ≠ k) : dictInsert d k v = d ++ [(k, v)] := by
  have hany : d.any (fun p => p.1 == k) = false := by
    simp only [List.any_eq_false, beq_iff_eq]
    exact h
  simp [dictInsert, hany]

theorem foldl_dictInsert_fresh :
    ∀ (entries d : List (String × String)),
      (∀ e ∈ entries, ∀ p ∈ d, p.1 ≠ e.1) →
      (entries.map Prod.fst).Nodup →
      entries.foldl (fun acc e => dictInsert acc e.1 e.2) d = d ++ entries := by
  intro entries
  induction entries with
  | nil => intro d _ _; simp
  | cons e es ih =>
    intro d hfresh hnodup
    have hins : dictInsert d e.1 e.2 = d ++ [e] := by
      rw [dictInsert_fresh (fun p hp => hfresh e (List.mem_cons_self e es) p hp)]
    have hnd : (es.map Prod.fst).Nodup := (List.nodup_cons.1 hnodup).2
    have hhd : e.1 ∉ es.map Prod.fst := (List.nodup_cons.1 hnodup).1
    have hfresh2 : ∀ e2 ∈ es, ∀ p ∈ d ++ [e], p.1 ≠ e2.1 := by
      intro e2 he2 p hp
      rcases List.mem_append.1 hp with hd | he
      · exact hfresh e2 (List.mem_cons_of_mem _ he2) p hd
      · have : p = e := by simpa using he
        subst this
        intro hk
        exact hhd (hk ▸ List.mem_map_of_mem Prod.fst he2)
    calc (e :: es).foldl (fun acc e => dictInsert acc e.1 e.2) d
        = es.foldl (fun acc e => dictInsert acc e.1 e.2) (d ++ [e]) := by
          simp [List.foldl_cons, hins]
      _ = (d ++ [e]) ++ es := ih (d ++ [e]) hfresh2 hnd
      _ = d ++ (e :: es) := by simp

theorem dictGet?_self :
    ∀ {entries : List (String × String)}, (entries.map Prod.fst).Nodup →
      ∀ {e : String × String}, e ∈ entries →
      dictGet? entries e.1 = some e.2 := by
  intro entries
  induction entries with
  | nil => intro _ e he; simp at he
  | cons hd tl ih =>
    intro hnodup e he
    rcases List.mem_cons.1 he with heq | htl
    · subst heq
      simp [dictGet?, List.find?]
    · have hne : hd.1 ≠ e.1 := by
        intro hk
        exact (List.nodup_cons.1 hnodup).1
          (hk ▸ List.mem_map_of_mem Prod.fst htl)
      have : (hd.1 == e.1) = false := by simp [hne]
      simp only [dictGet?, List.find?, this]
      exact ih (List.nodup_cons.1 hnodup).2 htl

/-! ## Correctness of the parser on well-formed headers -/

theorem ws_ne_semi {c : Char} (h : c.isWhitespace = true) : c ≠ ';' := by
  intro he; rw [he] at h; exact absurd h (by decide)

theorem ws_ne_comma {c : Char} (h : c.isWhitespace = true) : c ≠ ',' := by
  intro he; rw [he] at h; exact absurd h (by decide)

theorem comma_not_mem_renderEntryChars {e : String × String}
    (hg : goodEntry e) : ',' ∉ renderEntryChars e := by
  obtain ⟨n, u⟩ := e
  obtain ⟨hn1, _, _, hu1, _⟩ := hg
  intro hm
  simp [renderEntryChars] at hm
  rcases hm with h | h
  · exact hu1 h
  · exact hn1 h

theorem parseSegment_ok {e : String × String} (hg : goodEntry e)
    {pre : List Char} (hpre : ∀ c ∈ pre, c.isWhitespace = true) :
    parseSegment (pre ++ renderEntryChars e) = some e := by
  obtain ⟨n, u⟩ := e
  obtain ⟨hn1, hn2, hn3, hu1, hu2⟩ := hg
  have hseg : pre ++ renderEntryChars (n, u)
      = (pre ++ ('<' :: (u.data ++ ['>']))) ++ (';' ::
        (' ' :: ('r' :: ('e' :: ('l' :: ('=' :: ('"' ::
          (n.data ++ ['"'])))))))) := by
    simp [renderEntryChars]
  have hsemi₁ : ';' ∉ pre ++ ('<' :: (u.data ++ ['>'])) := by
    intro hm
    simp at hm
    rcases hm with h | h
    · exact ws_ne_semi (hpre _ h) rfl
    · exact hu2 h
  have hsemi₂ : ';' ∉ (' ' :: ('r' :: ('e' :: ('l' :: ('=' :: ('"' ::
      (n.data ++ ['"'])))))) : List Char) := by
    intro hm
    simp at hm
    exact hn2 hm
  have hstrip0 : pyStrip (pre ++ ('<' :: (u.data ++ ['>'])))
      = '<' :: (u.data ++ ['>']) :=
    pyStrip_sandwich hpre (by decide) (by decide)
  have htail : (' ' :: ('r' :: ('e' :: ('l' :: ('=' :: ('"' ::
      (n.data ++ ['"'])))))) : List Char)
      = [' '] ++ 'r' :: ((['e', 'l', '=', '"'] ++ n.data) ++ ['"']) := by
    simp
  have hstrip1 : pyStrip (' ' :: ('r' :: ('e' :: ('l' :: ('=' :: ('"' ::
      (n.data ++ ['"'])))))) : List Char)
      = 'r' :: ((['e', 'l', '=', '"'] ++ n.data) ++ ['"']) := by
    rw [htail]
    exact pyStrip_sandwich (by intro c hc; simp at hc; subst hc; decide)
      (by decide) (by decide)
  have hrel : ('r' :: ((['e', 'l', '=', '"'] ++ n.data) ++ ['"']) : List Char)
      = ['r', 'e', 'l'] ++ '=' :: ('"' :: (n.data ++ ['"'])) := by
    simp
  have heq₂ : '=' ∉ ('"' :: (n.data ++ ['"']) : List Char) := by
    intro hm
    simp at hm
    exact hn3 hm
  have hsplit_rel : pySplitChars '='
      ('r' :: ((['e', 'l', '=', '"'] ++ n.data) ++ ['"']))
      = [['r', 'e', 'l'], '"' :: (n.data ++ ['"'])] := by
    rw [hrel, pySplitChars_append (by decide), pySplitChars_of_not_mem heq₂]
  rw [hseg]
  simp only [parseSegment, pySplitChars_append hsemi₁,
    pySplitChars_of_not_mem hsemi₂, hstrip0, hstrip1, hsplit_rel]
  simp [pyCore_sandwich]

theorem renderHeader_cons_data (e : String × String)
    (e2 : String × String) (es : List (String × String)) :
    (renderHeader (e :: e2 :: es)).data
      = renderEntryChars e ++ (',' :: (' ' :: (renderHeader (e2 :: es)).data)) := by
  show (renderEntry e ++ ", " ++ renderHeader (e2 :: es)).data = _
  rw [String.data_append, String.data_append]
  simp [renderEntry]

theorem parseLinkGo_render :
    ∀ (entries : List (String × String)), entries ≠ [] →
      (∀ e ∈ entries, goodEntry e) →
      ∀ (pre : List Char), (∀ c ∈ pre, c.isWhitespace = true) →
      ∀ (d : List (String × String)),
      parseLinkGo (pySplitChars ',' (pre ++ (renderHeader entries).data)) d
        = some (entries.foldl (fun acc e => dictInsert acc e.1 e.2) d) := by
  intro entries
  induction entries with
  | nil => intro h; exact absurd rfl h
  | cons e es ih =>
    intro _ hgood pre hpre d
    have hge : goodEntry e := hgood e (List.mem_cons_self e es)
    have hcomma : ',' ∉ pre ++ renderEntryChars e := by
      intro hm
      rcases List.mem_append.1 hm with h | h
      · exact ws_ne_comma (hpre _ h) rfl
      · exact comma_not_mem_renderEntryChars hge h
    cases es with
    | nil =>
      have hsplit : pySplitChars ',' (pre ++ (renderHeader [e]).data)
          = [pre ++ renderEntryChars e] :=
        pySplitChars_of_not_mem hcomma
      rw [hsplit]
      simp only [parseLinkGo, parseSegment_ok hge hpre]
      simp
    | cons e2 es2 =>
      have hdata : pre ++ (renderHeader (e :: e2 :: es2)).data
          = (pre ++ renderEntryChars e) ++
            (',' :: ([' '] ++ (renderHeader (e2 :: es2)).data)) := by
        rw [renderHeader_cons_data]
        simp
      rw [hdata, pySplitChars_append hcomma]
      simp only [parseLinkGo, parseSegment_ok hge hpre]
      rw [ih (by simp) (fun x hx => hgood x (List.mem_cons_of_mem _ hx))
        [' '] (by intro c hc; simp at hc; subst hc; decide)
        (dictInsert d e.1 e.2)]
      simp

theorem renderHeader_ne_empty (e : String × String)
    (es : List (String × String)) : renderHeader (e :: es) ≠ "" := by
  intro h
  have hd := congrArg String.data h
  cases es with
  | nil =>
    have : (renderHeader [e]).data = renderEntryChars e := rfl
    rw [this] at hd
    simp [renderEntryChars] at hd
  | cons e2 es2 =>
    rw [renderHeader_cons_data] at hd
    simp [renderEntryChars] at hd

/-- On a non-empty list of well-formed entries, `parse_link_header` returns
the dict built by the source loop. -/
theorem parse_renderHeader {entries : List (String × String)}
    (hne : entries ≠ []) (hgood : ∀ e ∈ entries, goodEntry e) :
    parse_link_header (some (renderHeader entries))
      = some (some (entries.foldl (fun acc e => dictInsert acc e.1 e.2) [])) := by
  cases entries with
  | nil => exact absurd rfl hne
  | cons e es =>
    have hgo := parseLinkGo_render (e :: es) (by simp) hgood []
      (by intro c hc; simp at hc) []
    simp only [List.nil_append] at hgo
    simp only [parse_link_header, if_neg (renderHeader_ne_empty e es), hgo]

/-! ## Behaviour of `paginate` on the mock transport -/

theorem mockUrl_ne_empty (i : Nat) : mockUrl i ≠ "" := by
  intro h
  have hd := congrArg String.data h
  simp [mockUrl] at hd

theorem mockUrl_inj {i j : Nat} (h : mockUrl i = mockUrl j) : i = j := by
  have hd := congrArg (fun s => s.data.length) h
  simp [mockUrl] at hd
  exact hd

theorem mockUrl_no_comma (i : Nat) : ',' ∉ (mockUrl i).data := by
  intro hm
  simp [mockUrl, List.mem_replicate] at hm

theorem mockUrl_no_semi (i : Nat) : ';' ∉ (mockUrl i).data := by
  intro hm
  simp [mockUrl, List.mem_replicate] at hm

theorem parse_nextHeader {u : String} (h1 : ',' ∉ u.data)
    (h2 : ';' ∉ u.data) :
    parse_link_header (some (nextHeader u)) = some (some [("next", u)]) := by
  have hgood : ∀ e ∈ [(("next" : String), u)], goodEntry e := by
    intro e he
    simp only [List.mem_singleton] at he
    subst he
    refine ⟨?_, ?_, ?_, h1, h2⟩
    · show ',' ∉ ("next" : String).data
      decide
    · show ';' ∉ ("next" : String).data
      decide
    · show '=' ∉ ("next" : String).data
      decide
  have h := parse_renderHeader (by simp) hgood
  simpa [nextHeader, dictInsert] using h

theorem linkNext_single (u : String) :
    linkNext (some [("next", u)]) = some u := by
  simp [linkNext, dictGet?, List.find?]

theorem mockFetchGo_skip (err : α) :
    ∀ (pre post : List (PageSpec α)) (i j : Nat), j = i + pre.length →
      mockFetchGo err (pre ++ post) i (mockUrl j)
        = mockFetchGo err post j (mockUrl j) := by
  intro pre
  induction pre with
  | nil => intro post i j hj; simp at hj; subst hj; rfl
  | cons sp pres ih =>
    intro post i j hj
    have hne : mockUrl j ≠ mockUrl i := by
      intro h
      have := mockUrl_inj h
      simp at hj
      omega
    simp only [List.cons_append, mockFetchGo, if_neg hne]
    exact ih post (i + 1) j (by simp at hj ⊢; omega)

theorem mockFetchGo_hit (err : α) (sp : PageSpec α)
    (rest : List (PageSpec α)) (i : Nat) :
    mockFetchGo err (sp :: rest) i (mockUrl i)
      = ⟨sp.status, sp.body, sp.raw,
          if rest.isEmpty then none
          else some (nextHeader (mockUrl (i + 1)))⟩ := by
  simp [mockFetchGo]

theorem buildUrl_none (u : String) : buildUrl u none = u := by
  simp [buildUrl, paramsTruthy]

/-- On the mock transport the pagination loop started at page `pre.length`
computes exactly `mockRun pre.length post`. -/
theorem paginate_mock (err : α) (specs : List (PageSpec α)) :
    ∀ (post : List (PageSpec α)), post ≠ [] →
      ∀ (pre : List (PageSpec α)), specs = pre ++ post →
      ∀ (fuel : Nat), post.length ≤ fuel →
      paginateAux (mockFetch err specs) none fuel (some (mockUrl pre.length))
        = some (mockRun pre.length post) := by
  intro post
  induction post with
  | nil => intro h; exact absurd rfl h
  | cons sp rest ih =>
    intro _ pre hspecs fuel hfuel
    cases fuel with
    | zero => simp at hfuel
    | succ f =>
      by_cases hst : sp.status = 200
      · cases rest with
        | nil =>
          have hfetch : mockFetch err specs (mockUrl pre.length)
              = ⟨sp.status, sp.body, sp.raw, none⟩ := by
            rw [mockFetch, hspecs,
              mockFetchGo_skip err pre [sp] 0 pre.length (by simp),
              mockFetchGo_hit]
            simp
          simp only [paginateAux, if_neg (mockUrl_ne_empty pre.length),
            buildUrl_none, hfetch, if_pos hst]
          simp [parse_link_header, linkNext, paginateAux, mockRun, hst]
        | cons sp2 rest2 =>
          have hfetch : mockFetch err specs (mockUrl pre.length)
              = ⟨sp.status, sp.body, sp.raw,
                  some (nextHeader (mockUrl (pre.length + 1)))⟩ := by
            rw [mockFetch, hspecs,
              mockFetchGo_skip err pre (sp :: sp2 :: rest2) 0 pre.length
                (by simp),
              mockFetchGo_hit]
            simp
          simp only [paginateAux, if_neg (mockUrl_ne_empty pre.length),
            buildUrl_none, hfetch, if_pos hst]
          rw [parse_nextHeader (mockUrl_no_comma _) (mockUrl_no_semi _)]
          simp only [linkNext_single]
          have hrec := ih (by simp) (pre ++ [sp])
            (by rw [hspecs]; simp) f (by simp at hfuel ⊢; omega)
          simp only [List.length_append, List.length_singleton] at hrec
          rw [hrec]
          simp [mockRun, hst]
      · have hfetch : (mockFetch err specs (mockUrl pre.length)).status
            = sp.status ∧
            (mockFetch err specs (mockUrl pre.length)).body = sp.body ∧
            (mockFetch err specs (mockUrl pre.length)).raw = sp.raw := by
          rw [mockFetch, hspecs,
            mockFetchGo_skip err pre (sp :: rest) 0 pre.length (by simp),
            mockFetchGo_hit]
          exact ⟨rfl, rfl, rfl⟩
        simp only [paginateAux, if_neg (mockUrl_ne_empty pre.length),
          buildUrl_none, hfetch.1, hfetch.2.1, hfetch.2.2, if_neg hst]
        simp [mockRun, hst]

/-- When every page is served with status 200, the mock run collects every
page body in order and finishes. -/
theorem mockRun_all200 :
    ∀ (specs : List (PageSpec α)) (i : Nat),
      (∀ sp ∈ specs, sp.status = 200) →
      mockRun i specs
        = ⟨specs.map (fun sp => sp.body), mockReqs i specs.length,
           (mockReqs i specs.length).map (fun s => "GET " ++ s), true⟩ := by
  intro specs
  induction specs with
  | nil => intro i _; rfl
  | cons sp rest ih =>
    intro i h200
    have hsp := h200 sp (List.mem_cons_self sp rest)
    rw [mockRun, if_pos hsp,
      ih (i + 1) (fun x hx => h200 x (List.mem_cons_of_mem _ hx))]
    simp [mockReqs]

/-- When page `pre.length` is served with a non-200 status, the mock run
returns the pages before it, requests exactly one more page, reports the
failure, and finishes. -/
theorem mockRun_halt :
    ∀ (pre : List (PageSpec α)) (bad : PageSpec α)
      (rest : List (PageSpec α)) (i : Nat),
      (∀ sp ∈ pre, sp.status = 200) → bad.status ≠ 200 →
      mockRun i (pre ++ bad :: rest)
        = ⟨pre.map (fun sp => sp.body), mockReqs i (pre.length + 1),
           (mockReqs i pre.length).map (fun s => "GET " ++ s) ++
             ["GET " ++ mockUrl (i + pre.length),
              "Failed to retrieve items: " ++ toString bad.status, bad.raw],
           true⟩ := by
  intro pre
  induction pre with
  | nil =>
    intro bad rest i _ hbad
    simp [mockRun, hbad, mockReqs]
  | cons sp pres ih =>
    intro bad rest i h200 hbad
    have hsp := h200 sp (List.mem_cons_self sp pres)
    rw [List.cons_append, mockRun, if_pos hsp,
      ih bad rest (i + 1) (fun x hx => h200 x (List.mem_cons_of_mem _ hx)) hbad]
    have harith : i + 1 + pres.length = i + (pres.length + 1) := by omega
    simp [mockReqs, harith]

theorem mockReqs_length : ∀ (k i : Nat), (mockReqs i k).length = k := by
  intro k
  induction k with
  | zero => intro i; rfl
  | succ n ih => intro i; simp [mockReqs, ih]

/-! ## Behaviour of the deletion loop -/

/-- The lines printed for one run: `DELETE <url>`, then `Success` on a 204
or `Failed: <status>` and the body otherwise. -/
def deleteBlock (deleteFetch : String → Nat × String) (owner repo : String)
    (r : Run) : List String :=
  ("DELETE " ++ runUrl owner repo r.id) ::
    (if (deleteFetch (runUrl owner repo r.id)).1 = 204 then ["Success"]
     else ["Failed: " ++ toString (deleteFetch (runUrl owner repo r.id)).1,
       (deleteFetch (runUrl owner repo r.id)).2])

theorem deleteLoop_eq (deleteFetch : String → Nat × String)
    (owner repo : String) :
    ∀ runs : List Run,
      deleteLoop deleteFetch owner repo runs
        = (runs.map (fun r => runUrl owner repo r.id),
           (runs.map (deleteBlock deleteFetch owner repo)).flatten) := by
  intro runs
  induction runs with
  | nil => rfl
  | cons r rest ih => simp [deleteLoop, deleteBlock, ih]

theorem deleteBlock_success_iff (deleteFetch : String → Nat × String)
    (owner repo : String) (r : Run) :
    deleteBlock deleteFetch owner repo r
        = ["DELETE " ++ runUrl owner repo r.id, "Success"]
      ↔ (deleteFetch (runUrl owner repo r.id)).1 = 204 := by
  constructor
  · intro h
    by_contra hne
    rw [deleteBlock, if_neg hne] at h
    have := congrArg List.length h
    simp at this
  · intro h
    rw [deleteBlock, if_pos h]

/-! ## Claims -/

/-- C1: for every sequence of pages served by a mock transport (including
zero pages), the paginator collects exactly the page payloads in
server-returned order, and the flattened list handed to the user or the
deletion step is the concatenation of the items of each page, in page order
and within-page order — each item exactly once, no duplicates, no drops. -/
theorem C1_flatten_is_concat (specs : List (PageSpec RunsPage))
    (h200 : ∀ sp ∈ specs, sp.status = 200) (fuel : Nat)
    (hfuel : specs.length < fuel) :
    ∃ res : PagRes RunsPage,
      paginate fuel (mockFetch ⟨[]⟩ specs) (mockUrl 0) none = some res ∧
      res.finished = true ∧
      res.pages = specs.map (fun sp => sp.body) ∧
      flattenRuns res.pages
        = (specs.map (fun sp => sp.body.workflow_runs)).flatten := by
  cases specs with
  | nil =>
    cases fuel with
    | zero => omega
    | succ f =>
      refine ⟨⟨[], [mockUrl 0],
        ["GET " ++ mockUrl 0, "Failed to retrieve items: " ++ toString 404,
         "Not Found"], true⟩, ?_, rfl, rfl, rfl⟩
      simp only [paginate, paginateAux, if_neg (mockUrl_ne_empty 0),
        buildUrl_none, mockFetch, mockFetchGo]
      simp [flattenRuns]
  | cons sp rest =>
    have h := paginate_mock (⟨[]⟩ : RunsPage ) (sp :: rest) (sp :: rest)
      (by simp) [] rfl fuel (by simpa using Nat.le_of_lt hfuel)
    simp only [List.length_nil] at h
    rw [mockRun_all200 (sp :: rest) 0 h200] at h
    refine ⟨_, h, rfl, rfl, ?_⟩
    simp only [flattenRuns, List.map_map]
    rfl

/-- C1 witness: two pages with runs 1,2 and 3. -/
theorem C1_witness :
    ∃ res : PagRes RunsPage,
      paginate 3 (mockFetch ⟨[]⟩
          [⟨200, ⟨[⟨1⟩, ⟨2⟩]⟩, "p1"⟩, ⟨200, ⟨[⟨3⟩]⟩, "p2"⟩])
        (mockUrl 0) none = some res ∧
      res.finished = true ∧
      res.pages = [⟨200, (⟨[⟨1⟩, ⟨2⟩]⟩ : RunsPage), "p1"⟩,
          (⟨200, ⟨[⟨3⟩]⟩, "p2"⟩ : PageSpec RunsPage)].map
          (fun sp => sp.body) ∧
      flattenRuns res.pages
        = ([⟨200, (⟨[⟨1⟩, ⟨2⟩]⟩ : RunsPage), "p1"⟩,
            (⟨200, ⟨[⟨3⟩]⟩, "p2"⟩ : PageSpec RunsPage)].map
            (fun sp => sp.body.workflow_runs)).flatten :=
  C1_flatten_is_concat
    [⟨200, ⟨[⟨1⟩, ⟨2⟩]⟩, "p1"⟩, ⟨200, ⟨[⟨3⟩]⟩, "p2"⟩]
    (by decide) 3 (by decide)

/-- C4: a non-success status on any page halts pagination early: the pages
collected before it are returned, exactly one more request was issued (so a
first-page failure returns zero pages after a single request), the failure
is reported with its status, and the loop exits. -/
theorem C4_nonsuccess_halts (pre rest : List (PageSpec RunsPage))
    (bad : PageSpec RunsPage) (h200 : ∀ sp ∈ pre, sp.status = 200)
    (hbad : ¬ (200 ≤ bad.status ∧ bad.status < 300)) (fuel : Nat)
    (hfuel : (pre ++ bad :: rest).length ≤ fuel) :
    ∃ res : PagRes RunsPage,
      paginate fuel (mockFetch ⟨[]⟩ (pre ++ bad :: rest)) (mockUrl 0) none
        = some res ∧
      res.pages = pre.map (fun sp => sp.body) ∧
      res.requests.length = pre.length + 1 ∧
      ("Failed to retrieve items: " ++ toString bad.status) ∈ res.log ∧
      bad.raw ∈ res.log ∧
      res.finished = true := by
  have hne200 : bad.status ≠ 200 := by
    intro h
    exact hbad (by omega)
  have h := paginate_mock (⟨[]⟩ : RunsPage) (pre ++ bad :: rest)
    (pre ++ bad :: rest) (by simp) [] rfl fuel hfuel
  simp only [List.length_nil] at h
  rw [mockRun_halt pre bad rest 0 h200 hne200] at h
  refine ⟨_, h, rfl, ?_, ?_, ?_, rfl⟩
  · exact mockReqs_length _ _
  · simp
  · simp

/-- C4 witness: a first-page 500 answer yields zero pages and one request. -/
theorem C4_witness :
    ∃ res : PagRes RunsPage,
      paginate 1 (mockFetch ⟨[]⟩ [⟨500, ⟨[⟨7⟩]⟩, "server error"⟩])
        (mockUrl 0) none = some res ∧
      res.pages = ([] : List (PageSpec RunsPage)).map (fun sp => sp.body) ∧
      res.requests.length = ([] : List (PageSpec RunsPage)).length + 1 ∧
      ("Failed to retrieve items: " ++ toString 500) ∈ res.log ∧
      "server error" ∈ res.log ∧
      res.finished = true :=
  C4_nonsuccess_halts [] [] ⟨500, ⟨[⟨7⟩]⟩, "server error"⟩ (by decide)
    (by decide) 1 (by decide)

/-- C10: the paginator accepts a page only on status exactly 200; any other
status — including 2xx statuses such as 201 or 204 — discards that page
body, prints the status and the body, and halts with exactly the pages
collected before it. -/
theorem C10_only_200_continues (pre rest : List (PageSpec RunsPage))
    (bad : PageSpec RunsPage) (h200 : ∀ sp ∈ pre, sp.status = 200)
    (hbad : bad.status ≠ 200) (fuel : Nat)
    (hfuel : (pre ++ bad :: rest).length ≤ fuel) :
    paginate fuel (mockFetch ⟨[]⟩ (pre ++ bad :: rest)) (mockUrl 0) none
      = some ⟨pre.map (fun sp => sp.body), mockReqs 0 (pre.length + 1),
          (mockReqs 0 pre.length).map (fun s => "GET " ++ s) ++
            ["GET " ++ mockUrl pre.length,
             "Failed to retrieve items: " ++ toString bad.status, bad.raw],
          true⟩ := by
  have h := paginate_mock (⟨[]⟩ : RunsPage) (pre ++ bad :: rest)
    (pre ++ bad :: rest) (by simp) [] rfl fuel hfuel
  simp only [List.length_nil] at h
  rw [mockRun_halt pre bad rest 0 h200 hbad] at h
  simpa using h

/-- C10 witness: a 204 (a 2xx success that is not 200) on the second page
halts pagination after the first page. -/
theorem C10_witness :
    paginate 2 (mockFetch ⟨[]⟩
        [⟨200, ⟨[⟨1⟩]⟩, "p1"⟩, ⟨204, ⟨[⟨2⟩]⟩, "no content"⟩])
      (mockUrl 0) none
      = some ⟨[(⟨200, ⟨[⟨1⟩]⟩, "p1"⟩ : PageSpec RunsPage)].map
            (fun sp => sp.body),
          mockReqs 0 ([(⟨200, ⟨[⟨1⟩]⟩, "p1"⟩ : PageSpec RunsPage)].length + 1),
          (mockReqs 0 [(⟨200, ⟨[⟨1⟩]⟩, "p1"⟩ : PageSpec RunsPage)].length).map
              (fun s => "GET " ++ s) ++
            ["GET " ++ mockUrl [(⟨200, ⟨[⟨1⟩]⟩, "p1"⟩ : PageSpec RunsPage)].length,
             "Failed to retrieve items: " ++ toString 204, "no content"],
          true⟩ :=
  C10_only_200_continues [⟨200, ⟨[⟨1⟩]⟩, "p1"⟩] []
    ⟨204, ⟨[⟨2⟩]⟩, "no content"⟩ (by decide) (by decide) 2 (by decide)

/-- C2: after an affirmative confirmation, the delete command issues
exactly one DELETE per run, sequentially, in the order pagination returned
the runs; each run is reported as `Success` exactly when its status is 204
and as `Failed: <status>` with the body otherwise, and the loop never
aborts early — the DELETE list is the full map over the runs. -/
theorem C2_delete_batch (getFetch : String → HttpResp RunsPage)
    (deleteFetch : String → Nat × String) (fuel : Nat)
    (owner repo workflow_id : String) (inputs : List String)
    (res : PagRes RunsPage)
    (hpag : paginate fuel getFetch (runsUrl owner repo workflow_id)
      (some perPage20) = some res)
    (hne : flattenRuns res.pages ≠ [])
    (hconf : pyLower (inputs.getD 0 "") = "y") :
    delete_workflow_runs_m getFetch deleteFetch fuel owner repo workflow_id
        inputs
      = some ⟨res.log ++ [confirmMsg (flattenRuns res.pages).length,
          "\nAs you wish...\n"] ++
          ((flattenRuns res.pages).map
            (deleteBlock deleteFetch owner repo)).flatten ++ ["\nDone."],
          res.requests,
          (flattenRuns res.pages).map (fun r => runUrl owner repo r.id), 1⟩
      ∧ ∀ r ∈ flattenRuns res.pages,
        (deleteBlock deleteFetch owner repo r
            = ["DELETE " ++ runUrl owner repo r.id, "Success"]
          ↔ (deleteFetch (runUrl owner repo r.id)).1 = 204) := by
  constructor
  · have hisE : (flattenRuns res.pages).isEmpty = false := by
      cases hfl : flattenRuns res.pages with
      | nil => exact absurd hfl hne
      | cons a l => rfl
    have hcf : ¬ (pyLower (inputs.getD 0 "") ≠ "y") := fun hx => hx hconf
    simp only [delete_workflow_runs_m, list_workflow_runs_m, hpag, hisE,
      Bool.false_eq_true, if_false, if_neg hcf, deleteLoop_eq]
  · intro r _
    exact deleteBlock_success_iff deleteFetch owner repo r

/-- C5: any confirmation input other than a case-insensitive `y` aborts the
delete command after the count is presented: `Aborted.` is printed and zero
DELETE requests are issued. -/
theorem C5_abort (getFetch : String → HttpResp RunsPage)
    (deleteFetch : String → Nat × String) (fuel : Nat)
    (owner repo workflow_id : String) (inputs : List String)
    (res : PagRes RunsPage)
    (hpag : paginate fuel getFetch (runsUrl owner repo workflow_id)
      (some perPage20) = some res)
    (hne : flattenRuns res.pages ≠ [])
    (hconf : pyLower (inputs.getD 0 "") ≠ "y") :
    delete_workflow_runs_m getFetch deleteFetch fuel owner repo workflow_id
        inputs
      = some ⟨res.log ++ [confirmMsg (flattenRuns res.pages).length,
          "Aborted."], res.requests, [], 1⟩ := by
  have hisE : (flattenRuns res.pages).isEmpty = false := by
    cases hfl : flattenRuns res.pages with
    | nil => exact absurd hfl hne
    | cons a l => rfl
  simp only [delete_workflow_runs_m, list_workflow_runs_m, hpag, hisE,
    Bool.false_eq_true, if_false, if_pos hconf]

/-- C8: an unrecognized command name makes `run` print `Invalid command`
and stop after reading only the token and the command: no repository
prompt is consumed and no GET or DELETE request is issued. -/
theorem C8_invalid_command (wfFetch : String → HttpResp WorkflowsPage)
    (runFetch : String → HttpResp RunsPage)
    (deleteFetch : String → Nat × String) (fuel : Nat)
    (inputs : List String) (h : inputs.getD 1 "" ∉ commands) :
    runMain wfFetch runFetch deleteFetch fuel inputs
      = some ⟨["Invalid command"], [], [], 2⟩ := by
  simp only [runMain, if_neg h]

/-- C8 witness: the command `delete_everything` is rejected. -/
theorem C8_witness :
    runMain (fun _ => ⟨404, ⟨[]⟩, "", none⟩) (fun _ => ⟨404, ⟨[]⟩, "", none⟩)
        (fun _ => (404, "")) 5 ["token", "delete_everything", "o", "r"]
      = some ⟨["Invalid command"], [], [], 2⟩ :=
  C8_invalid_command _ _ _ 5 ["token", "delete_everything", "o", "r"]
    (by decide)

/-- C9: an empty flattened pagination result makes both commands report an
informational message and stop: `list_workflows` prints no listing, and the
delete command reads no confirmation input and issues no DELETE request. -/
theorem C9_empty_result_stops :
    (∀ (wfFetch : String → HttpResp WorkflowsPage) (fuel : Nat)
        (owner repo : String) (res : PagRes WorkflowsPage),
      paginate fuel wfFetch (workflowsUrl owner repo) (some perPage20)
          = some res →
      flattenWorkflows res.pages = [] →
      list_workflows_m wfFetch fuel owner repo
        = some ⟨res.log ++ ["No workflows found."], res.requests, [], 0⟩) ∧
    (∀ (runFetch : String → HttpResp RunsPage)
        (deleteFetch : String → Nat × String) (fuel : Nat)
        (owner repo workflow_id : String) (inputs : List String)
        (res : PagRes RunsPage),
      paginate fuel runFetch (runsUrl owner repo workflow_id)
          (some perPage20) = some res →
      flattenRuns res.pages = [] →
      delete_workflow_runs_m runFetch deleteFetch fuel owner repo
          workflow_id inputs
        = some ⟨res.log ++ ["No workflow runs found."],
            res.requests, [], 0⟩) := by
  constructor
  · intro wfFetch fuel owner repo res hpag hflat
    simp only [list_workflows_m, hpag, hflat]
    simp
  · intro runFetch deleteFetch fuel owner repo workflow_id inputs res
      hpag hflat
    simp only [delete_workflow_runs_m, list_workflow_runs_m, hpag, hflat]
    simp

/-! ### Concrete transports for witnesses and counterexamples -/

/-- One page with runs 1, 2, 3 at the runs URL of repository `o/r`,
workflow `w`. -/
def wFetchRuns : String → HttpResp RunsPage := fun s =>
  if s = "/repos/o/r/actions/workflows/w/runs?per_page=20" then
    ⟨200, ⟨[⟨1⟩, ⟨2⟩, ⟨3⟩]⟩, "", none⟩
  else ⟨404, ⟨[]⟩, "Not Found", none⟩

/-- DELETE endpoint where run 2 fails with a 500 and the rest succeed. -/
def wDelete : String → Nat × String := fun s =>
  if s = "/repos/o/r/actions/runs/2" then (500, "boom") else (204, "")

/-- The pagination trace `wFetchRuns` produces. -/
def wPagRes : PagRes RunsPage :=
  ⟨[⟨[⟨1⟩, ⟨2⟩, ⟨3⟩]⟩],
   ["/repos/o/r/actions/workflows/w/runs?per_page=20"],
   ["GET /repos/o/r/actions/workflows/w/runs?per_page=20"], true⟩

/-- A workflows endpoint whose single page lists no workflows. -/
def wFetchNoWf : String → HttpResp WorkflowsPage := fun s =>
  if s = "/repos/o/r/actions/workflows?per_page=20" then
    ⟨200, ⟨[]⟩, "", none⟩
  else ⟨404, ⟨[]⟩, "Not Found", none⟩

/-- A runs endpoint whose single page lists no runs. -/
def wFetchNoRuns : String → HttpResp RunsPage := fun s =>
  if s = "/repos/o/r/actions/workflows/w/runs?per_page=20" then
    ⟨200, ⟨[]⟩, "", none⟩
  else ⟨404, ⟨[]⟩, "Not Found", none⟩

/-- The pagination trace `wFetchNoWf` produces. -/
def wPagResWf : PagRes WorkflowsPage :=
  ⟨[⟨[]⟩], ["/repos/o/r/actions/workflows?per_page=20"],
   ["GET /repos/o/r/actions/workflows?per_page=20"], true⟩

/-- The pagination trace `wFetchNoRuns` produces. -/
def wPagResNoRuns : PagRes RunsPage :=
  ⟨[⟨[]⟩], ["/repos/o/r/actions/workflows/w/runs?per_page=20"],
   ["GET /repos/o/r/actions/workflows/w/runs?per_page=20"], true⟩

/-- C2 witness: three runs, the DELETE of run 2 fails, runs 1 and 3 are
still attempted and reported, and the batch runs to completion. -/
theorem C2_witness :
    (delete_workflow_runs_m wFetchRuns wDelete 2 "o" "r" "w" ["Y"]
      = some ⟨wPagRes.log ++ [confirmMsg (flattenRuns wPagRes.pages).length,
          "\nAs you wish...\n"] ++
          ((flattenRuns wPagRes.pages).map
            (deleteBlock wDelete "o" "r")).flatten ++ ["\nDone."],
          wPagRes.requests,
          (flattenRuns wPagRes.pages).map (fun r => runUrl "o" "r" r.id), 1⟩)
      ∧ ∀ r ∈ flattenRuns wPagRes.pages,
        (deleteBlock wDelete "o" "r" r
            = ["DELETE " ++ runUrl "o" "r" r.id, "Success"]
          ↔ (wDelete (runUrl "o" "r" r.id)).1 = 204) :=
  C2_delete_batch wFetchRuns wDelete 2 "o" "r" "w" ["Y"] wPagRes
    (by decide) (by decide) (by decide)

/-- C5 witness: confirmation input `n` aborts with zero DELETE requests. -/
theorem C5_witness :
    delete_workflow_runs_m wFetchRuns wDelete 2 "o" "r" "w" ["n"]
      = some ⟨wPagRes.log ++ [confirmMsg (flattenRuns wPagRes.pages).length,
          "Aborted."], wPagRes.requests, [], 1⟩ :=
  C5_abort wFetchRuns wDelete 2 "o" "r" "w" ["n"] wPagRes
    (by decide) (by decide) (by decide)

/-- C9 witness: empty workflows and empty runs both stop with the
informational message, no listing, no confirmation read, no DELETE. -/
theorem C9_witness :
    list_workflows_m wFetchNoWf 2 "o" "r"
      = some ⟨wPagResWf.log ++ ["No workflows found."],
          wPagResWf.requests, [], 0⟩
    ∧ delete_workflow_runs_m wFetchNoRuns wDelete 2 "o" "r" "w" ["y"]
      = some ⟨wPagResNoRuns.log ++ ["No workflow runs found."],
          wPagResNoRuns.requests, [], 0⟩ :=
  ⟨C9_empty_result_stops.1 wFetchNoWf 2 "o" "r" wPagResWf
      (by decide) (by decide),
   C9_empty_result_stops.2 wFetchNoRuns wDelete 2 "o" "r" "w" ["y"]
      wPagResNoRuns (by decide) (by decide)⟩

/-- C3 counterexample transport: the first page points at the continuation
`/b`, a next-relation URL with no query string of its own. -/
def c3Fetch : String → HttpResp RunsPage := fun s =>
  if s = "/a?per_page=20" then
    ⟨200, ⟨[⟨1⟩]⟩, "", some (nextHeader "/b")⟩
  else if s = "/b?per_page=20" then ⟨200, ⟨[⟨2⟩]⟩, "", none⟩
  else ⟨404, ⟨[]⟩, "Not Found", none⟩

/-- The trace of `paginate` on `c3Fetch`. -/
def c3Res : PagRes RunsPage :=
  ⟨[⟨[⟨1⟩]⟩, ⟨[⟨2⟩]⟩], ["/a?per_page=20", "/b?per_page=20"],
   ["GET /a?per_page=20", "GET /b?per_page=20"], true⟩

/-- C3 is false as stated: the previous response names the continuation
`/b`, but the second request is `/b?per_page=20`, not the exact URL `/b` —
`paginate` hands `params` to `http_get` on every iteration, so parameters
are appended to any continuation URL that lacks a query string. -/
theorem C3_counterexample :
    (paginate 3 c3Fetch "/a" (some perPage20)).map (fun r => r.requests)
      = some ["/a?per_page=20", "/b?per_page=20"]
    ∧ ("/b?per_page=20" : String) ≠ "/b" := by decide

/-- C3 (amended): a request whose URL already contains a query string is
used verbatim and the supplied parameters are ignored (no double query);
a URL without one gets the parameters appended once; and each step of the
pagination loop requests exactly `buildUrl url params` for the URL it is
following, so a continuation URL that carries its own query string — as
the continuation links of this API do — is requested unchanged. -/
theorem C3_amended (u : String) (p : Option (List (String × String))) :
    ('?' ∈ u.data → buildUrl u p = u) ∧
    ('?' ∉ u.data → paramsTruthy p = true →
      buildUrl u p = u ++ "?" ++ urlencode (p.getD [])) ∧
    (∀ (fetch : String → HttpResp RunsPage) (fuel : Nat)
        (res : PagRes RunsPage), u ≠ "" →
      paginateAux fetch p (fuel + 1) (some u) = some res →
      res.requests.head? = some (buildUrl u p)) := by
  refine ⟨?_, ?_, ?_⟩
  · intro h
    rw [buildUrl, if_neg (by simp [h])]
  · intro h ht
    rw [buildUrl, if_pos ⟨ht, h⟩]
  · intro fetch fuel res hu hres
    simp only [paginateAux, if_neg hu] at hres
    split at hres
    · split at hres
      · exact Option.noConfusion hres
      · split at hres
        · exact Option.noConfusion hres
        · injection hres with h2
          subst h2
          rfl
    · injection hres with h2
      subst h2
      rfl

/-- C3 amended witness: a URL with a query string is kept verbatim, one
without gets `per_page=20` appended, and on `c3Fetch` the first request of
a loop step is exactly `buildUrl` of the URL being followed. -/
theorem C3_amended_witness :
    buildUrl "/a?x=1" (some perPage20) = "/a?x=1" ∧
    buildUrl "/b" (some perPage20) = "/b" ++ "?" ++ urlencode perPage20 ∧
    c3Res.requests.head? = some (buildUrl "/a" (some perPage20)) :=
  ⟨(C3_amended "/a?x=1" (some perPage20)).1 (by decide),
   (C3_amended "/b" (some perPage20)).2.1 (by decide) (by decide),
   (C3_amended "/a" (some perPage20)).2.2 c3Fetch 2 c3Res (by decide)
     (by decide)⟩

/-- C6: a well-formed header of `<url>; rel="name"` entries separated by
commas (each segment after the first carrying surrounding whitespace from
the join) parses to the mapping that sends each relation name to its exact
URL; a missing or empty header yields Python `None` and hence no
continuation. -/
theorem C6_well_formed_mapping (entries : List (String × String))
    (hne : entries ≠ []) (hgood : ∀ e ∈ entries, goodEntry e)
    (hnodup : (entries.map Prod.fst).Nodup) :
    parse_link_header none = some none ∧
    parse_link_header (some "") = some none ∧
    parse_link_header (some (renderHeader entries)) = some (some entries) ∧
    ∀ e ∈ entries, dictGet? entries e.1 = some e.2 := by
  refine ⟨rfl, rfl, ?_, ?_⟩
  · rw [parse_renderHeader hne hgood,
      foldl_dictInsert_fresh entries [] (by simp) hnodup]
    simp
  · intro e he
    exact dictGet?_self hnodup he

/-- The entries of the C6 witness, mirroring the spec example. -/
def wEntries : List (String × String) :=
  [("next", "https://api.example.com/runs?page=2"),
   ("last", "https://api.example.com/runs?page=9")]

/-- C6 witness: the rendered two-entry header parses back to its mapping,
with `next` bound to the exact URL between the angle brackets. -/
theorem C6_witness :
    parse_link_header none = some none ∧
    parse_link_header (some "") = some none ∧
    parse_link_header (some (renderHeader wEntries)) = some (some wEntries) ∧
    ∀ e ∈ wEntries, dictGet? wEntries e.1 = some e.2 :=
  C6_well_formed_mapping wEntries (by decide) (by decide) (by decide)

/-- C7 is false as stated: the non-empty segment `https://x; rel="next"` is
malformed — its URL is not enclosed in angle brackets — yet the parser
neither skips it nor fails: it silently stores the incorrect URL `ttps://`
(the first and last characters of `https://x`, stripped unconditionally by
the slice) under the relation `next`. -/
theorem C7_counterexample :
    parse_link_header (some "https://x; rel=\"next\"")
      = some (some [("next", "ttps://")])
    ∧ ("ttps://" : String) ≠ "https://x" := by decide

theorem mem_of_mem_dropWhile {p : Char → Bool} {c : Char} :
    ∀ {l : List Char}, c ∈ l.dropWhile p → c ∈ l := by
  intro l
  induction l with
  | nil => intro h; simp at h
  | cons a as ih =>
    intro h
    by_cases hp : p a = true
    · rw [List.dropWhile_cons, if_pos hp] at h
      exact List.mem_cons_of_mem _ (ih h)
    · rw [List.dropWhile_cons, if_neg hp] at h
      exact h

theorem pyStrip_subset {c : Char} {l : List Char} (h : c ∈ pyStrip l) :
    c ∈ l := by
  rw [pyStrip, pyRStrip, List.mem_reverse] at h
  have h2 := mem_of_mem_dropWhile h
  rw [List.mem_reverse, pyLStrip] at h2
  exact mem_of_mem_dropWhile h2

/-- If any segment of the comma-split fails, the `for` loop of
`parse_link_header` raises before returning: the whole call yields no
mapping. -/
theorem parseLinkGo_fail :
    ∀ (segs : List (List Char)) (d : List (String × String)),
      (∃ seg ∈ segs, parseSegment seg = none) →
      parseLinkGo segs d = none := by
  intro segs
  induction segs with
  | nil => intro d hex; simp at hex
  | cons s rest ih =>
    intro d hex
    obtain ⟨seg, hmem, hfail⟩ := hex
    cases hps : parseSegment s with
    | none => simp [parseLinkGo, hps]
    | some pr =>
      rcases List.mem_cons.1 hmem with rfl | hmem2
      · rw [hps] at hfail
        exact Option.noConfusion hfail
      · obtain ⟨rel, url⟩ := pr
        simp only [parseLinkGo, hps]
        exact ih _ ⟨seg, hmem2, hfail⟩

/-- C7 (amended): a malformed segment makes the parser fail with an
uncaught index error and the whole call produces no mapping, also when the
bad segment sits inside a multi-segment header — this covers a segment
missing the `;` separator and a segment whose rel part lacks the `=`; but
a segment whose URL merely lacks the angle brackets is not detected — the
parser strips the first and last characters of the URL field and can
silently store an incorrect URL. -/
theorem C7_amended :
    (∀ hdr : String, hdr ≠ "" →
      ∀ seg ∈ pySplitChars ',' hdr.data, parseSegment seg = none →
      parse_link_header (some hdr) = none) ∧
    (∀ seg : List Char, ';' ∉ seg → parseSegment seg = none) ∧
    (∀ l₁ l₂ : List Char, ';' ∉ l₁ → ';' ∉ l₂ → '=' ∉ l₂ →
      parseSegment (l₁ ++ ';' :: l₂) = none) ∧
    parse_link_header (some "https://x; rel=\"next\"")
      = some (some [("next", "ttps://")]) := by
  refine ⟨?_, ?_, ?_, by decide⟩
  · intro hdr hne seg hmem hfail
    simp only [parse_link_header, if_neg hne,
      parseLinkGo_fail _ [] ⟨seg, hmem, hfail⟩]
  · intro seg hsemi
    simp only [parseSegment, pySplitChars_of_not_mem hsemi]
  · intro l₁ l₂ h₁ h₂ h₃
    have hsplit : pySplitChars ';' (l₁ ++ ';' :: l₂) = [l₁, l₂] := by
      rw [pySplitChars_append h₁, pySplitChars_of_not_mem h₂]
    have hget : (pySplitChars '=' (pyStrip l₂)).get? 1 = none := by
      rw [pySplitChars_of_not_mem (fun hm => h₃ (pyStrip_subset hm))]
      rfl
    simp only [parseSegment, hsplit, hget]

/-- C7 amended witness: the segment `abc` (no `;`) fails, the header
`<https://x>; rel"next"` (no `=` in the rel part) fails with no mapping,
and a malformed second segment inside a multi-segment header also makes
the whole parse fail with no mapping. -/
theorem C7_amended_witness :
    parseSegment "abc".data = none ∧
    parse_link_header (some "<https://x>; rel\"next\"") = none ∧
    parse_link_header (some "<https://a>; rel=\"next\", bogus") = none :=
  ⟨C7_amended.2.1 "abc".data (by decide),
   C7_amended.1 "<https://x>; rel\"next\"" (by decide)
     "<https://x>; rel\"next\"".data (by decide)
     (C7_amended.2.2.1 "<https://x>".data " rel\"next\"".data
       (by decide) (by decide) (by decide)),
   C7_amended.1 "<https://a>; rel=\"next\", bogus" (by decide)
     " bogus".data (by decide)
     (C7_amended.2.1 " bogus".data (by decide))⟩

end DWR
